import Mathlib

/-!
Verification of the photo-manager backend (FastAPI + Celery image gallery).

This file gives a shallow embedding, in Lean 4, of the parts of the code
that the specification talks about: the time-tag deriver, the EXIF date
resolution, the tag / image relational model with its CRUD operations,
the list/search query, the delete and edit endpoints, the AI-enrichment
merge, the periodic RAG indexer, and the pixel-level invert filter of the
edit endpoint.  Every definition is translated from the corresponding
Python source (`app/tasks.py`, `app/crud.py`, `app/routers/images.py`,
`app/ai.py`); theorems then settle the specification claims.
-/

namespace PM

/-- Calendar timestamp, mirroring Python `datetime.datetime` in the fields
the code actually reads (year, month, day, hour, minute, second). -/
structure DT where
  year : Nat
  month : Nat
  day : Nat
  hour : Nat
  minute : Nat
  second : Nat
  deriving DecidableEq, Repr

/-- `tasks.generate_time_tags`: turns a timestamp into the list
`[year-tag, month-tag, season-tag, day-part-tag]`, exactly as the Python
if/elif/else ladder computes them. -/
def generate_time_tags (dt : DT) : List String :=
  let yearTag := toString dt.year ++ "年"
  let monthTag := toString dt.month ++ "月"
  let season :=
    if dt.month = 3 ∨ dt.month = 4 ∨ dt.month = 5 then "春季"
    else if dt.month = 6 ∨ dt.month = 7 ∨ dt.month = 8 then "夏季"
    else if dt.month = 9 ∨ dt.month = 10 ∨ dt.month = 11 then "秋季"
    else "冬季"
  let daypart :=
    if 5 ≤ dt.hour ∧ dt.hour < 12 then "上午"
    else if 12 ≤ dt.hour ∧ dt.hour < 18 then "下午"
    else "晚上"
  [yearTag, monthTag, season, daypart]

/-- The four season tags the deriver can emit. -/
def season_tags : List String := ["春季", "夏季", "秋季", "冬季"]

/-- The three day-part tags the deriver can emit. -/
def daypart_tags : List String := ["上午", "下午", "晚上"]

lemma ne_of_mem_not_mem {s t : String} (c : Char) (h1 : c ∈ s.data)
    (h2 : c ∉ t.data) : s ≠ t := by
  intro he
  exact h2 (he ▸ h1)

lemma mem_data_append_right (s : String) (c : Char) :
    c ∈ (s ++ String.mk [c]).data := by
  have : (s ++ String.mk [c]).data = s.data ++ [c] := rfl
  rw [this]
  exact List.mem_append_right _ (List.mem_singleton.mpr rfl)

lemma yeartag_not_season (n : Nat) : (toString n ++ "年") ∉ season_tags := by
  intro h
  have hc : (Char.ofNat 0x5E74) ∈ (toString n ++ "年").data :=
    mem_data_append_right (toString n) _
  simp only [season_tags, List.mem_cons, List.not_mem_nil, or_false] at h
  rcases h with h | h | h | h <;>
    exact ne_of_mem_not_mem _ hc (by decide) h

lemma monthtag_not_season (n : Nat) : (toString n ++ "月") ∉ season_tags := by
  intro h
  have hc : (Char.ofNat 0x6708) ∈ (toString n ++ "月").data :=
    mem_data_append_right (toString n) _
  simp only [season_tags, List.mem_cons, List.not_mem_nil, or_false] at h
  rcases h with h | h | h | h <;>
    exact ne_of_mem_not_mem _ hc (by decide) h

lemma yeartag_not_daypart (n : Nat) : (toString n ++ "年") ∉ daypart_tags := by
  intro h
  have hc : (Char.ofNat 0x5E74) ∈ (toString n ++ "年").data :=
    mem_data_append_right (toString n) _
  simp only [daypart_tags, List.mem_cons, List.not_mem_nil, or_false] at h
  rcases h with h | h | h <;>
    exact ne_of_mem_not_mem _ hc (by decide) h

lemma monthtag_not_daypart (n : Nat) : (toString n ++ "月") ∉ daypart_tags := by
  intro h
  have hc : (Char.ofNat 0x6708) ∈ (toString n ++ "月").data :=
    mem_data_append_right (toString n) _
  simp only [daypart_tags, List.mem_cons, List.not_mem_nil, or_false] at h
  rcases h with h | h | h <;>
    exact ne_of_mem_not_mem _ hc (by decide) h

lemma daypart_not_season {p : String} (h : p ∈ daypart_tags) :
    p ∉ season_tags := by
  simp only [daypart_tags, List.mem_cons, List.not_mem_nil, or_false] at h
  rcases h with rfl | rfl | rfl <;> decide

lemma season_not_daypart {s : String} (h : s ∈ season_tags) :
    s ∉ daypart_tags := by
  simp only [season_tags, List.mem_cons, List.not_mem_nil, or_false] at h
  rcases h with rfl | rfl | rfl | rfl <;> decide

/-- Structural form of the deriver output: always the year tag, the month
tag, one season tag and one day-part tag, in that order. -/
lemma generate_time_tags_structure (dt : DT) :
    ∃ s p, s ∈ season_tags ∧ p ∈ daypart_tags ∧
      generate_time_tags dt =
        [toString dt.year ++ "年", toString dt.month ++ "月", s, p] := by
  unfold generate_time_tags
  split_ifs <;>
    exact ⟨_, _, by decide, by decide, rfl⟩

/-! ## Relational data model (`app/models.py`)

`Tag` rows are globally deduplicated by name and carry a `tag_type`
discriminator; `Image` rows carry the lifecycle status and the columns
the verified operations read or write.  The image↔tag link table is
embedded as the list of linked tag names stored on each image (tag names
are globally unique, so a link row is determined by the pair). -/

/-- A row of `tbl_tag`. -/
structure Tag where
  name : String
  tag_type : String
  deriving DecidableEq, Repr

/-- The AI-analysis JSON produced by the vision model
(`{caption, tags, location_zh}`). -/
structure AIResult where
  caption : String
  tags : List String
  location_zh : Option String
  deriving DecidableEq, Repr

/-- A row of `tbl_image`, restricted to the columns the verified
operations touch. -/
structure Image where
  id : Nat
  user_id : Nat
  status : String
  title : Option String
  description : Option String
  original_filename : String
  taken_at : Option DT
  uploaded_at : Nat
  file_size : Nat
  location_name : Option String
  tags : List String
  rag_indexed : Bool
  ai_analysis : Option AIResult
  parent_image_id : Option Nat
  root_image_id : Option Nat
  deriving DecidableEq, Repr

/-- Database state: the image table and the tag dictionary. -/
structure DB where
  images : List Image
  tagDict : List Tag
  deriving DecidableEq, Repr

/-- `crud.get_image`: first image row with the given id. -/
def img_of (db : DB) (k : Nat) : Option Image :=
  db.images.find? (fun i => i.id == k)

/-- `crud.get_tag_by_name`: first tag row with the given name. -/
def find_tag (db : DB) (n : String) : Option Tag :=
  db.tagDict.find? (fun t => t.name == n)

/-- Row update helper: apply `f` to every image row with id `k`
(id-preserving updates model SQLAlchemy attribute assignment + commit). -/
def update_image (l : List Image) (k : Nat) (f : Image → Image) : List Image :=
  l.map (fun i => if i.id == k then f i else i)

/-- `crud.get_or_create_tag`: return the existing tag row for `n`, or
append a fresh row with the requested `tag_type`.  The existing row is
returned untouched — in particular its `tag_type` is not rewritten. -/
def get_or_create_tag (db : DB) (n : String) (ty : String) : DB × Tag :=
  match find_tag db n with
  | some t => (db, t)
  | none => ({ db with tagDict := db.tagDict ++ [⟨n, ty⟩] }, ⟨n, ty⟩)

/-- `crud.add_tag_to_image`: link a tag to an image, creating the tag row
if needed; re-linking an already-linked name is a no-op. -/
def add_tag_to_image (db : DB) (imageId : Nat) (n : String) (ty : String) : DB :=
  match img_of db imageId with
  | none => db
  | some img =>
    if n ∈ img.tags then (get_or_create_tag db n ty).1
    else { (get_or_create_tag db n ty).1 with
      images := update_image ((get_or_create_tag db n ty).1).images imageId
        (fun i => { i with tags := i.tags ++ [n] }) }

/-- Folding `crud.add_tag_to_image` over a list of names with one fixed
requested tag type (the shape of both the time-tag loop and the
AI-keyword loop in `app/tasks.py`). -/
def apply_tags (db : DB) (imageId : Nat) (names : List String) (ty : String) : DB :=
  names.foldl (fun d n => add_tag_to_image d imageId n ty) db

lemma find?_append_of_some {α : Type} (p : α → Bool) {l : List α} (l' : List α)
    {x : α} (h : l.find? p = some x) : (l ++ l').find? p = some x := by
  induction l with
  | nil => simp [List.find?] at h
  | cons a t ih =>
    by_cases ha : p a
    · simp [List.find?, ha] at h ⊢; exact h
    · simp only [List.cons_append, List.find?, ha] at h ⊢
      exact ih h

lemma find?_append_of_none {α : Type} (p : α → Bool) {l : List α} (l' : List α)
    (h : l.find? p = none) : (l ++ l').find? p = l'.find? p := by
  induction l with
  | nil => simp
  | cons a t ih =>
    by_cases ha : p a
    · simp [List.find?, ha] at h
    · simp only [List.cons_append, List.find?, ha] at h ⊢
      exact ih h

lemma find?_update_self (l : List Image) (k : Nat) (f : Image → Image)
    (hf : ∀ i, (f i).id = i.id) :
    (update_image l k f).find? (fun i => i.id == k) =
      (l.find? (fun i => i.id == k)).map f := by
  induction l with
  | nil => simp [update_image]
  | cons a t ih =>
    by_cases ha : a.id = k
    · simp [update_image, List.find?, ha, hf a]
    · have hb : (a.id == k) = false := by simp [ha]
      simp only [update_image, List.map_cons, hb, Bool.false_eq_true, if_false,
        List.find?]
      simpa [update_image] using ih

lemma img_of_update_self (db : DB) (k : Nat) (f : Image → Image)
    (hf : ∀ i, (f i).id = i.id) (l' : List Tag) :
    img_of ⟨update_image db.images k f, l'⟩ k = (img_of db k).map f := by
  simpa [img_of] using find?_update_self db.images k f hf

lemma images_get_or_create (db : DB) (n ty : String) :
    ((get_or_create_tag db n ty).1).images = db.images := by
  unfold get_or_create_tag
  cases find_tag db n <;> rfl

/-- Effect of `add_tag_to_image` on the targeted image row. -/
lemma img_of_add_tag (db : DB) (imageId : Nat) (n ty : String) {img : Image}
    (h : img_of db imageId = some img) :
    img_of (add_tag_to_image db imageId n ty) imageId =
      some (if n ∈ img.tags then img else { img with tags := img.tags ++ [n] }) := by
  unfold add_tag_to_image
  rw [h]
  by_cases hm : n ∈ img.tags
  · simp only [hm, if_true]
    have : img_of (get_or_create_tag db n ty).1 imageId = some img := by
      unfold img_of
      rw [images_get_or_create]
      exact h
    simpa [hm] using this
  · simp only [hm, if_false]
    have hbase : img_of (get_or_create_tag db n ty).1 imageId = some img := by
      unfold img_of
      rw [images_get_or_create]
      exact h
    have := img_of_update_self ⟨(get_or_create_tag db n ty).1.images, []⟩ imageId
      (fun i => { i with tags := i.tags ++ [n] }) (fun i => rfl)
      ((get_or_create_tag db n ty).1).tagDict
    unfold img_of at this hbase ⊢
    simp only at this
    rw [this, hbase]
    simp [hm]

/-- `add_tag_to_image` never rewrites an existing tag row. -/
lemma find_tag_add_tag_stable (db : DB) (imageId : Nat) (n ty m : String)
    {t : Tag} (h : find_tag db m = some t) :
    find_tag (add_tag_to_image db imageId n ty) m = some t := by
  unfold add_tag_to_image
  cases himg : img_of db imageId with
  | none => exact h
  | some img =>
    dsimp only
    have hd : find_tag (get_or_create_tag db n ty).1 m = some t := by
      unfold get_or_create_tag
      cases hf : find_tag db n with
      | some t0 => simpa using h
      | none =>
        unfold find_tag at h ⊢
        exact find?_append_of_some _ _ h
    by_cases hm : n ∈ img.tags
    · rw [if_pos hm]; exact hd
    · rw [if_neg hm]; exact hd

/-- Creating a fresh tag name through `add_tag_to_image` records the
requested tag type. -/
lemma find_tag_add_tag_creates (db : DB) (imageId : Nat) (n ty : String)
    {img : Image} (himg : img_of db imageId = some img)
    (h : find_tag db n = none) :
    find_tag (add_tag_to_image db imageId n ty) n = some ⟨n, ty⟩ := by
  unfold add_tag_to_image
  rw [himg]
  dsimp only
  have hd : find_tag (get_or_create_tag db n ty).1 n = some ⟨n, ty⟩ := by
    unfold get_or_create_tag
    rw [h]
    unfold find_tag at h ⊢
    simp only
    rw [find?_append_of_none _ _ h]
    simp [List.find?]
  by_cases hm : n ∈ img.tags
  · rw [if_pos hm]; exact hd
  · rw [if_neg hm]; exact hd

/-- For a name other than the one being linked, a previously absent tag
row stays absent. -/
lemma find_tag_add_tag_fresh_other (db : DB) (imageId : Nat) (n ty m : String)
    (hne : m ≠ n) (h : find_tag db m = none) :
    find_tag (add_tag_to_image db imageId n ty) m = none := by
  unfold add_tag_to_image
  cases himg : img_of db imageId with
  | none => exact h
  | some img =>
    dsimp only
    have hd : find_tag (get_or_create_tag db n ty).1 m = none := by
      unfold get_or_create_tag
      cases hf : find_tag db n with
      | some t0 => simpa using h
      | none =>
        unfold find_tag at h ⊢
        simp only
        rw [find?_append_of_none _ _ h]
        have : (n == m) = false := by
          simp [Ne.symm hne]
        simp [List.find?, this]
    by_cases hm : n ∈ img.tags
    · rw [if_pos hm]; exact hd
    · rw [if_neg hm]; exact hd

lemma apply_tags_cons (db : DB) (imageId : Nat) (n : String) (ns : List String)
    (ty : String) :
    apply_tags db imageId (n :: ns) ty =
      apply_tags (add_tag_to_image db imageId n ty) imageId ns ty := rfl

/-- Behaviour of the tag-linking fold on the targeted image row: all
scalar columns are preserved, old links are kept, every folded name ends
up linked, nodup-ness of the link list is preserved (the fold
deduplicates), and no link outside `old ∪ names` appears. -/
lemma apply_tags_spec (names : List String) :
    ∀ (db : DB) (imageId : Nat) (ty : String) (img : Image),
      img_of db imageId = some img →
      ∃ img', img_of (apply_tags db imageId names ty) imageId = some img' ∧
        img'.id = img.id ∧ img'.user_id = img.user_id ∧
        img'.status = img.status ∧ img'.description = img.description ∧
        img'.title = img.title ∧ img'.location_name = img.location_name ∧
        img'.ai_analysis = img.ai_analysis ∧ img'.taken_at = img.taken_at ∧
        (∀ x, x ∈ img.tags → x ∈ img'.tags) ∧
        (∀ n, n ∈ names → n ∈ img'.tags) ∧
        (img.tags.Nodup → img'.tags.Nodup) ∧
        (∀ x, x ∈ img'.tags → x ∈ img.tags ∨ x ∈ names) := by
  induction names with
  | nil =>
    intro db imageId ty img h
    exact ⟨img, h, rfl, rfl, rfl, rfl, rfl, rfl, rfl, rfl,
      fun x hx => hx, fun n hn => absurd hn (List.not_mem_nil n),
      fun hd => hd, fun x hx => Or.inl hx⟩
  | cons n0 ns ih =>
    intro db imageId ty img h
    have hstep := img_of_add_tag db imageId n0 ty h
    rw [apply_tags_cons]
    by_cases hc : n0 ∈ img.tags
    · rw [if_pos hc] at hstep
      obtain ⟨img', h', hid, huid, hst, hdesc, htitle, hloc, hai, htak,
        hsub, hnames, hnodup, hfrom⟩ := ih _ imageId ty img hstep
      refine ⟨img', h', hid, huid, hst, hdesc, htitle, hloc, hai, htak,
        hsub, ?_, hnodup, ?_⟩
      · intro n hn
        rcases List.mem_cons.mp hn with rfl | hn'
        · exact hsub n hc
        · exact hnames n hn'
      · intro x hx
        rcases hfrom x hx with hx' | hx'
        · exact Or.inl hx'
        · exact Or.inr (List.mem_cons_of_mem _ hx')
    · rw [if_neg hc] at hstep
      obtain ⟨img', h', hid, huid, hst, hdesc, htitle, hloc, hai, htak,
        hsub, hnames, hnodup, hfrom⟩ :=
        ih _ imageId ty { img with tags := img.tags ++ [n0] } hstep
      refine ⟨img', h', hid, huid, hst, hdesc, htitle, hloc, hai, htak,
        ?_, ?_, ?_, ?_⟩
      · intro x hx
        exact hsub x (by simp [hx])
      · intro n hn
        rcases List.mem_cons.mp hn with rfl | hn'
        · exact hsub n (by simp)
        · exact hnames n hn'
      · intro hnd
        refine hnodup ?_
        simp only [List.nodup_append, List.nodup_cons, List.not_mem_nil,
          not_false_iff, List.nodup_nil, and_true, true_and]
        constructor
        · exact hnd
        · intro a ha hb
          simp only [List.mem_singleton] at hb
          exact hc (hb ▸ ha)
      · intro x hx
        rcases hfrom x hx with hx' | hx'
        · rcases List.mem_append.mp hx' with h1 | h1
          · exact Or.inl h1
          · simp only [List.mem_singleton] at h1
            exact Or.inr (h1 ▸ List.mem_cons_self n0 ns)
        · exact Or.inr (List.mem_cons_of_mem _ hx')

/-- The tag-linking fold never rewrites an existing tag-dictionary row. -/
lemma apply_tags_find_tag_stable (names : List String) :
    ∀ (db : DB) (imageId : Nat) (ty m : String) (t : Tag),
      find_tag db m = some t →
      find_tag (apply_tags db imageId names ty) m = some t := by
  induction names with
  | nil => intro db _ _ _ _ h; exact h
  | cons n0 ns ih =>
    intro db imageId ty m t h
    rw [apply_tags_cons]
    exact ih _ _ _ _ _ (find_tag_add_tag_stable db imageId n0 ty m h)

/-- A name that is fresh in the tag dictionary and occurs in the folded
list is created with the requested tag type. -/
lemma apply_tags_creates (names : List String) :
    ∀ (db : DB) (imageId : Nat) (ty : String) (img : Image) (n : String),
      img_of db imageId = some img → n ∈ names → find_tag db n = none →
      find_tag (apply_tags db imageId names ty) n = some ⟨n, ty⟩ := by
  induction names with
  | nil => intro db _ _ _ n _ hn; cases hn
  | cons n0 ns ih =>
    intro db imageId ty img n himg hn hnone
    rw [apply_tags_cons]
    by_cases he : n = n0
    · subst he
      have hc := find_tag_add_tag_creates db imageId n ty himg hnone
      exact apply_tags_find_tag_stable ns _ imageId ty n _ hc
    · rcases List.mem_cons.mp hn with rfl | hn'
      · exact absurd rfl he
      · have hstill : find_tag (add_tag_to_image db imageId n0 ty) n = none :=
          find_tag_add_tag_fresh_other db imageId n0 ty n he hnone
        have hstep := img_of_add_tag db imageId n0 ty himg
        exact ih _ imageId ty _ n hstep hn' hstill

/-- Test-fixture image row builder. -/
def mkImage (k uid : Nat) (st : String) (tgs : List String) : Image :=
  { id := k, user_id := uid, status := st, title := none, description := none,
    original_filename := "img.jpg", taken_at := none, uploaded_at := k,
    file_size := 100, location_name := none, tags := tgs, rag_indexed := false,
    ai_analysis := none, parent_image_id := none, root_image_id := some k }

/-- The time-tag linking step of `tasks.process_image_core`: each
generated time tag is linked through `crud.add_tag_to_image` with
`tag_type="derived_time"`. -/
def process_time_tags (db : DB) (imageId : Nat) (dt : DT) : DB :=
  apply_tags db imageId (generate_time_tags dt) "derived_time"

/-- C5: for every valid timestamp, `generate_time_tags` returns the year
tag `<year>年` and the month tag `<month>月`, exactly one season tag
(months 3-5 spring, 6-8 summer, 9-11 autumn, otherwise winter) and
exactly one day-part tag (hours 05:00-11:59 morning, 12:00-17:59
afternoon, otherwise evening); it is a pure function of the timestamp;
2024-07-15 14:30:00 yields exactly `["2024年","7月","夏季","下午"]`; and
the pipeline links each returned tag with `tag_type=derived_time`. -/
theorem C5_generate_time_tags (dt : DT) (db : DB) (imageId : Nat)
    (img : Image) (himg : img_of db imageId = some img)
    (hfresh : ∀ x ∈ generate_time_tags dt, find_tag db x = none) :
    (dt = ⟨2024, 7, 15, 14, 30, 0⟩ →
      generate_time_tags dt = ["2024年", "7月", "夏季", "下午"]) ∧
    (toString dt.year ++ "年") ∈ generate_time_tags dt ∧
    (toString dt.month ++ "月") ∈ generate_time_tags dt ∧
    (generate_time_tags dt).countP (fun x => decide (x ∈ season_tags)) = 1 ∧
    (generate_time_tags dt).countP (fun x => decide (x ∈ daypart_tags)) = 1 ∧
    (dt.month = 3 ∨ dt.month = 4 ∨ dt.month = 5 →
      "春季" ∈ generate_time_tags dt) ∧
    (dt.month = 6 ∨ dt.month = 7 ∨ dt.month = 8 →
      "夏季" ∈ generate_time_tags dt) ∧
    (dt.month = 9 ∨ dt.month = 10 ∨ dt.month = 11 →
      "秋季" ∈ generate_time_tags dt) ∧
    (dt.month ∉ [3, 4, 5, 6, 7, 8, 9, 10, 11] →
      "冬季" ∈ generate_time_tags dt) ∧
    (5 ≤ dt.hour ∧ dt.hour < 12 → "上午" ∈ generate_time_tags dt) ∧
    (12 ≤ dt.hour ∧ dt.hour < 18 → "下午" ∈ generate_time_tags dt) ∧
    (¬(5 ≤ dt.hour ∧ dt.hour < 12) ∧ ¬(12 ≤ dt.hour ∧ dt.hour < 18) →
      "晚上" ∈ generate_time_tags dt) ∧
    (∀ dt2 : DT, dt.year = dt2.year → dt.month = dt2.month →
      dt.hour = dt2.hour → generate_time_tags dt = generate_time_tags dt2) ∧
    (∃ img', img_of (process_time_tags db imageId dt) imageId = some img' ∧
      (∀ x ∈ generate_time_tags dt, x ∈ img'.tags) ∧
      (∀ x ∈ generate_time_tags dt,
        find_tag (process_time_tags db imageId dt) x =
          some ⟨x, "derived_time"⟩)) := by
  obtain ⟨s, p, hs, hp, heq⟩ := generate_time_tags_structure dt
  refine ⟨?_, ?_, ?_, ?_, ?_, ?_, ?_, ?_, ?_, ?_, ?_, ?_, ?_, ?_⟩
  · intro h
    subst h
    rfl
  · rw [heq]
    exact List.mem_cons_self _ _
  · rw [heq]
    simp
  · rw [heq]
    have hy := yeartag_not_season dt.year
    have hm2 := monthtag_not_season dt.month
    have hp2 := daypart_not_season hp
    simp [List.countP_cons, hy, hm2, hs, hp2]
  · rw [heq]
    have hy := yeartag_not_daypart dt.year
    have hm2 := monthtag_not_daypart dt.month
    have hs2 := season_not_daypart hs
    simp [List.countP_cons, hy, hm2, hs2, hp]
  · rintro (h | h | h) <;> simp [generate_time_tags, h]
  · rintro (h | h | h) <;> simp [generate_time_tags, h]
  · rintro (h | h | h) <;> simp [generate_time_tags, h]
  · intro h
    simp only [List.mem_cons, List.not_mem_nil, or_false] at h
    push_neg at h
    obtain ⟨h3, h4, h5, h6, h7, h8, h9, h10, h11⟩ := h
    unfold generate_time_tags
    rw [if_neg (by push_neg; exact ⟨h3, h4, h5⟩),
      if_neg (by push_neg; exact ⟨h6, h7, h8⟩),
      if_neg (by push_neg; exact ⟨h9, h10, h11⟩)]
    simp
  · intro h
    unfold generate_time_tags
    rw [if_pos h]
    simp
  · intro h
    have hn : ¬(5 ≤ dt.hour ∧ dt.hour < 12) := by omega
    unfold generate_time_tags
    rw [if_neg hn, if_pos h]
    simp
  · intro h
    unfold generate_time_tags
    rw [if_neg h.1, if_neg h.2]
    simp
  · intro dt2 h1 h2 h3
    unfold generate_time_tags
    rw [h1, h2, h3]
  · obtain ⟨img', h', _, _, _, _, _, _, _, _, _, hnames, _, _⟩ :=
      apply_tags_spec (generate_time_tags dt) db imageId "derived_time" img himg
    refine ⟨img', h', fun x hx => hnames x hx, fun x hx => ?_⟩
    exact apply_tags_creates (generate_time_tags dt) db imageId
      "derived_time" img x himg hx (hfresh x hx)

/-- Fixture for the time-tag scenario. -/
def c5_db : DB := ⟨[mkImage 1 7 "active" []], []⟩

/-- C5 witness: the theorem applied at the spec scenario
`DateTimeOriginal = 2024:07:15 14:30:00`. -/
theorem C5_generate_time_tags_witness :
    generate_time_tags ⟨2024, 7, 15, 14, 30, 0⟩ =
      ["2024年", "7月", "夏季", "下午"] :=
  (C5_generate_time_tags ⟨2024, 7, 15, 14, 30, 0⟩ c5_db 1
    (mkImage 1 7 "active" []) (by decide) (by decide)).1 rfl

/-- C10: a tag keeps the `tag_type` it was first created with:
`get_or_create_tag` on an existing name returns the stored row unchanged,
and `add_tag_to_image` with a different requested type still leaves the
stored row intact. -/
theorem C10_tag_type_immutable (db : DB) (imageId : Nat) (n ty1 : String)
    (t : Tag) (h : find_tag db n = some t) :
    (get_or_create_tag db n ty1).2 = t ∧
    find_tag (get_or_create_tag db n ty1).1 n = some t ∧
    find_tag (add_tag_to_image db imageId n ty1) n = some t := by
  refine ⟨?_, ?_, find_tag_add_tag_stable db imageId n ty1 n h⟩
  · unfold get_or_create_tag
    rw [h]
  · unfold get_or_create_tag
    rw [h]
    exact h

/-- Fixture for the tag-type scenario: the name was first created as a
user tag. -/
def c10_db : DB := ⟨[mkImage 1 7 "active" []], [⟨"海滩", "user"⟩]⟩

/-- C10 witness: a user-created tag stays `tag_type=user` when the AI
stage later requests it as `ai_generated`. -/
theorem C10_tag_type_immutable_witness :
    (get_or_create_tag c10_db "海滩" "ai_generated").2 = ⟨"海滩", "user"⟩ ∧
    find_tag (get_or_create_tag c10_db "海滩" "ai_generated").1 "海滩" =
      some ⟨"海滩", "user"⟩ ∧
    find_tag (add_tag_to_image c10_db 1 "海滩" "ai_generated") "海滩" =
      some ⟨"海滩", "user"⟩ :=
  C10_tag_type_immutable c10_db 1 "海滩" "ai_generated" ⟨"海滩", "user"⟩
    (by decide)

/-! ## Search/Filter engine (`crud.get_images`, `routers/images.read_images`) -/

/-- Linear encoding of a timestamp, used to compare `datetime` values
(strictly monotone in lexicographic field order for calendar values). -/
def DT.toKey (dt : DT) : Nat :=
  ((((dt.year * 13 + dt.month) * 32 + dt.day) * 24 + dt.hour) * 60 +
    dt.minute) * 60 + dt.second

/-- `datetime` comparison. -/
def dt_le (a b : DT) : Bool := decide (a.toKey ≤ b.toKey)

/-- Status filter of `get_images`: applied only when `status` is
non-empty (`if status:` in Python). -/
def status_ok (status : String) (i : Image) : Bool :=
  if status = "" then true else i.status == status

/-- Date-range filter of `get_images`: compares `taken_at`; a row with
NULL `taken_at` never satisfies a bound (SQL comparison semantics). -/
def date_ok (start_d end_d : Option DT) (i : Image) : Bool :=
  (match start_d with
   | none => true
   | some d =>
     match i.taken_at with
     | none => false
     | some t => dt_le d t) &&
  (match end_d with
   | none => true
   | some d =>
     match i.taken_at with
     | none => false
     | some t => dt_le t d)

/-- Tag-AND filter of `get_images`: join the image to its tag rows
restricted to the requested names, group by image, and keep the image iff
the matched-tag count equals the requested list length.  Skipped when the
tag list is missing or empty (`if tags and len(tags) > 0:`). -/
def tag_ok (tags : Option (List String)) (i : Image) : Bool :=
  match tags with
  | none => true
  | some ts =>
    if ts.length = 0 then true
    else (i.tags.filter (fun n => decide (n ∈ ts))).length == ts.length

/-- Sort key: `getattr(models.Image, sort_by, models.Image.uploaded_at)` —
`taken_at` and `file_size` are real columns; any other requested name
(including the advertised `resolution`, which is not a column) falls back
to `uploaded_at`. -/
def sort_key (sort_by : String) (i : Image) : Nat :=
  if sort_by = "taken_at" then
    match i.taken_at with
    | some d => d.toKey
    | none => 0
  else if sort_by = "file_size" then i.file_size
  else i.uploaded_at

/-- Row comparator: requested field in the requested direction, with the
secondary descending-id tiebreak `order_by(models.Image.id.desc())`. -/
def image_le (sort_by sort_order : String) (a b : Image) : Bool :=
  if sort_key sort_by a = sort_key sort_by b then decide (b.id ≤ a.id)
  else if sort_order = "desc" then
    decide (sort_key sort_by b ≤ sort_key sort_by a)
  else decide (sort_key sort_by a ≤ sort_key sort_by b)

/-- `crud.get_images`: filter by owner and status, then date range, then
tag intersection; sort; paginate with offset `skip` and limit `limit`.
These are exactly the parameters the Python function declares — note
there is no free-text and no date-field-selector parameter. -/
def get_images (db : List Image) (user_id skip limit : Nat)
    (tags : Option (List String)) (start_d end_d : Option DT)
    (sort_by sort_order : String) (status : String) : List Image :=
  ((((db.filter (fun i => i.user_id == user_id && status_ok status i &&
      date_ok start_d end_d i && tag_ok tags i)).mergeSort
      (image_le sort_by sort_order)).drop skip).take limit)

/-- Matched-tag-count condition versus carrying every requested tag, for
duplicate-free link lists and request lists. -/
lemma tag_count_iff {l ts : List String} (hl : l.Nodup) (ht : ts.Nodup) :
    ((l.filter (fun n => decide (n ∈ ts))).length = ts.length) ↔
      ∀ t ∈ ts, t ∈ l := by
  have hfn : (l.filter (fun n => decide (n ∈ ts))).Nodup := hl.filter _
  have hset : (l.filter (fun n => decide (n ∈ ts))).toFinset =
      l.toFinset ∩ ts.toFinset := by
    ext x
    simp [List.mem_filter]
  have hcard : (l.filter (fun n => decide (n ∈ ts))).length =
      (l.toFinset ∩ ts.toFinset).card := by
    rw [← List.toFinset_card_of_nodup hfn, hset]
  rw [hcard, ← List.toFinset_card_of_nodup ht]
  constructor
  · intro h t htmem
    have hsub : l.toFinset ∩ ts.toFinset = ts.toFinset :=
      Finset.eq_of_subset_of_card_le Finset.inter_subset_right (le_of_eq h.symm)
    have hss : ts.toFinset ⊆ l.toFinset := Finset.inter_eq_right.mp hsub
    simpa using hss (List.mem_toFinset.mpr htmem)
  · intro h
    have hsub : ts.toFinset ⊆ l.toFinset := by
      intro x hx
      simp only [List.mem_toFinset] at hx ⊢
      exact h x hx
    rw [Finset.inter_eq_right.mpr hsub]

/-- C4: tag-AND search — with a non-empty duplicate-free requested tag
list, an image is in the `get_images` result (first page, large enough
limit) iff it is owned by the requesting user, passes the status filter,
and carries every requested tag. -/
theorem C4_tag_and_search (db : List Image) (uid limit : Nat)
    (ts : List String) (sort_by sort_order status : String) (img : Image)
    (hts : ts ≠ []) (htnd : ts.Nodup) (hnd : img.tags.Nodup)
    (hlim : db.length ≤ limit) :
    img ∈ get_images db uid 0 limit (some ts) none none
        sort_by sort_order status ↔
      (img ∈ db ∧ img.user_id = uid ∧ (status = "" ∨ img.status = status) ∧
        ∀ t ∈ ts, t ∈ img.tags) := by
  unfold get_images
  rw [List.drop_zero]
  have hlen : ((db.filter (fun i => i.user_id == uid && status_ok status i &&
      date_ok none none i && tag_ok (some ts) i)).mergeSort
      (image_le sort_by sort_order)).length ≤ limit := by
    rw [List.length_mergeSort]
    exact le_trans (List.length_filter_le _ _) hlim
  rw [List.take_of_length_le hlen]
  rw [List.mem_mergeSort, List.mem_filter]
  have hdate : date_ok none none img = true := rfl
  have htagiff : tag_ok (some ts) img = true ↔ ∀ t ∈ ts, t ∈ img.tags := by
    unfold tag_ok
    dsimp only
    rw [if_neg (fun hz => hts (List.length_eq_zero.mp hz))]
    rw [beq_iff_eq]
    exact tag_count_iff hnd htnd
  have hstatiff : status_ok status img = true ↔
      (status = "" ∨ img.status = status) := by
    unfold status_ok
    by_cases hempty : status = ""
    · simp [hempty]
    · rw [if_neg hempty, beq_iff_eq]
      constructor
      · exact fun h => Or.inr h
      · rintro (h | h)
        · exact absurd h hempty
        · exact h
  constructor
  · rintro ⟨hmem, hpred⟩
    simp only [Bool.and_eq_true, beq_iff_eq] at hpred
    obtain ⟨⟨⟨hu, hst⟩, _⟩, htag⟩ := hpred
    exact ⟨hmem, hu, hstatiff.mp hst, htagiff.mp htag⟩
  · rintro ⟨hmem, hu, hst, htag⟩
    refine ⟨hmem, ?_⟩
    simp only [Bool.and_eq_true, beq_iff_eq]
    exact ⟨⟨⟨hu, hstatiff.mpr hst⟩, hdate⟩, htagiff.mpr htag⟩

/-- Scenario fixture: I1 carries tags {A, B}, I2 carries {A}. -/
def c4_I1 : Image := mkImage 1 7 "active" ["A", "B"]

/-- Scenario fixture: the second image of the tag-AND scenario. -/
def c4_I2 : Image := mkImage 2 7 "active" ["A"]

/-- C4 witness: the spec scenario — searching for tags=[A,B] over
{I1, I2} returns I1 and not I2. -/
theorem C4_tag_and_search_witness :
    (c4_I1 ∈ get_images [c4_I1, c4_I2] 7 0 50 (some ["A", "B"]) none none
        "uploaded_at" "desc" "active" ↔
      (c4_I1 ∈ [c4_I1, c4_I2] ∧ c4_I1.user_id = 7 ∧
        ("active" = "" ∨ c4_I1.status = "active") ∧
        ∀ t ∈ ["A", "B"], t ∈ c4_I1.tags)) ∧
    (c4_I2 ∈ get_images [c4_I1, c4_I2] 7 0 50 (some ["A", "B"]) none none
        "uploaded_at" "desc" "active" ↔
      (c4_I2 ∈ [c4_I1, c4_I2] ∧ c4_I2.user_id = 7 ∧
        ("active" = "" ∨ c4_I2.status = "active") ∧
        ∀ t ∈ ["A", "B"], t ∈ c4_I2.tags)) :=
  ⟨C4_tag_and_search [c4_I1, c4_I2] 7 50 ["A", "B"] "uploaded_at" "desc"
      "active" c4_I1 (by decide) (by decide) (by decide) (by decide),
    C4_tag_and_search [c4_I1, c4_I2] 7 50 ["A", "B"] "uploaded_at" "desc"
      "active" c4_I2 (by decide) (by decide) (by decide) (by decide)⟩

/-- Parameter names declared by `crud.get_images`. -/
def get_images_params : List String :=
  ["db", "user_id", "skip", "limit", "tags", "start_date", "end_date",
    "sort_by", "sort_order", "status"]

/-- Keyword arguments passed by `routers/images.read_images` to
`crud.get_images`. -/
def read_images_kwargs : List String :=
  ["db", "user_id", "skip", "limit", "tags", "search_query", "date_field",
    "start_date", "end_date", "sort_by", "sort_order", "status"]

/-- Python keyword binding: a keyword call succeeds only when every
keyword names a declared parameter; otherwise the call raises TypeError
before the body runs. -/
def kw_call_ok (params kwargs : List String) : Bool :=
  kwargs.all (fun k => params.contains k)

/-- `routers/images.read_images`: accepts the documented request
parameters (free-text `q`, `date_field`, tags, dates, status, sort,
pagination) and calls `crud.get_images` with `read_images_kwargs`; the
body of `get_images` is reached only if keyword binding succeeds. -/
def read_images (db : List Image) (uid : Nat) (_q : Option String)
    (tags : Option (List String)) (status : String) (_date_field : String)
    (start_d end_d : Option DT) (sort_by sort_order : String)
    (skip limit : Nat) : Except String (List Image) :=
  if kw_call_ok get_images_params read_images_kwargs then
    Except.ok (get_images db uid skip limit tags start_d end_d
      sort_by sort_order status)
  else
    Except.error "TypeError: get_images got an unexpected keyword argument"

/-- C1: evaluation of the code at the claim — every authenticated
list/search request fails with a TypeError, because `read_images` passes
the keywords `search_query` and `date_field` but `crud.get_images`
declares neither parameter; no page of records is ever returned. -/
theorem C1_read_images_type_error (db : List Image) (uid : Nat)
    (q : Option String) (tags : Option (List String))
    (status date_field : String) (start_d end_d : Option DT)
    (sort_by sort_order : String) (skip limit : Nat) :
    read_images db uid q tags status date_field start_d end_d sort_by
        sort_order skip limit =
      Except.error
        "TypeError: get_images got an unexpected keyword argument" ∧
    "search_query" ∈ read_images_kwargs ∧
    "search_query" ∉ get_images_params ∧
    "date_field" ∈ read_images_kwargs ∧
    "date_field" ∉ get_images_params := by
  refine ⟨?_, by decide, by decide, by decide, by decide⟩
  unfold read_images
  rw [if_neg (by decide)]

/-! ## Delete and edit endpoints (`routers/images.py`) -/

/-- Status mapping of `delete_image`: `active`→`active_deleted`,
`archived`→`archived_deleted`, anything else→`active_deleted`. -/
def delete_status (s : String) : String :=
  if s = "active" then "active_deleted"
  else if s = "archived" then "archived_deleted"
  else "active_deleted"

/-- `routers/images.delete_image`: 404 when the row is missing, 403 when
the caller does not own it; otherwise map the status, clear
`rag_indexed` and commit.  The vector-store removal afterwards is
best-effort and never touches the row. -/
def delete_image (db : DB) (uid imageId : Nat) : Except String DB :=
  match img_of db imageId with
  | none => Except.error "404 图片不存在"
  | some img =>
    if img.user_id ≠ uid then Except.error "403 您无权删除该图片"
    else Except.ok { db with
      images := update_image db.images imageId
        (fun i =>
          { i with status := delete_status img.status, rag_indexed := false }) }

/-- `routers/images.edit_image`, database transaction: after the
ownership and file checks, archive the old row (status `archived`,
`rag_indexed=false`) — with no check of the old row's current status —
and insert the child row in `processing` inheriting root id, title and
description. -/
def edit_image (db : DB) (uid imageId : Nat) (fileExists : Bool)
    (newId newUp newSize : Nat) : Except String DB :=
  match img_of db imageId with
  | none => Except.error "404 图片不存在"
  | some img =>
    if img.user_id ≠ uid then Except.error "403 您无权编辑该图片"
    else if fileExists = false then Except.error "404 原始图片文件丢失"
    else Except.ok { db with
      images := update_image db.images imageId
          (fun i => { i with status := "archived", rag_indexed := false }) ++
        [{ id := newId, user_id := uid, status := "processing",
           title := img.title, description := img.description,
           original_filename := img.original_filename, taken_at := none,
           uploaded_at := newUp, file_size := newSize,
           location_name := none, tags := [], rag_indexed := false,
           ai_analysis := none, parent_image_id := some imageId,
           root_image_id := img.root_image_id }] }

/-- Status of row `k` after an endpoint call (`none` when the call
errored or the row is absent). -/
def status_after (r : Except String DB) (k : Nat) : Option String :=
  match r with
  | Except.ok db => (img_of db k).map (fun i => i.status)
  | Except.error _ => none

/-- `rag_indexed` of row `k` after an endpoint call. -/
def rag_after (r : Except String DB) (k : Nat) : Option Bool :=
  match r with
  | Except.ok db => (img_of db k).map (fun i => i.rag_indexed)
  | Except.error _ => none

/-- Status of row `k` after two consecutive delete calls. -/
def status_after_two_deletes (db : DB) (uid k : Nat) : Option String :=
  match delete_image db uid k with
  | Except.ok db1 => status_after (delete_image db1 uid k) k
  | Except.error _ => none

lemma delete_image_ok (db : DB) (uid imageId : Nat) (img : Image)
    (himg : img_of db imageId = some img) (hown : img.user_id = uid) :
    delete_image db uid imageId = Except.ok { db with
      images := update_image db.images imageId
        (fun i =>
          { i with status := delete_status img.status, rag_indexed := false }) } := by
  unfold delete_image
  rw [himg]
  dsimp only
  rw [if_neg (by simp [hown])]

lemma delete_image_row (db : DB) (uid imageId : Nat) (img : Image)
    (himg : img_of db imageId = some img) (hown : img.user_id = uid) :
    ∃ db1, delete_image db uid imageId = Except.ok db1 ∧
      img_of db1 imageId =
        some { img with
               status := delete_status img.status, rag_indexed := false } := by
  refine ⟨_, delete_image_ok db uid imageId img himg hown, ?_⟩
  have := img_of_update_self db imageId
    (fun i =>
      { i with status := delete_status img.status, rag_indexed := false })
    (fun i => rfl) db.tagDict
  rw [this, himg]
  rfl

/-- C3 counterexample: deleting a `failed` image moves it to
`active_deleted`, so an operation other than a fresh edit does change
the status of a row in a terminal state. -/
theorem C3_counterexample_delete_moves_failed :
    (img_of ⟨[mkImage 1 7 "failed" []], []⟩ 1).map (fun i => i.status) =
      some "failed" ∧
    status_after (delete_image ⟨[mkImage 1 7 "failed" []], []⟩ 7 1) 1 =
      some "active_deleted" ∧
    some "active_deleted" ≠ some "failed" := by
  decide

/-- C3 amended: the terminal statuses are not stable.  Delete maps every
terminal status (`failed`, `active_deleted`, `archived_deleted`) to
`active_deleted` — so `failed` and `archived_deleted` rows do leave
their state, and only `active_deleted` is a fixed point — and edit
unconditionally archives the old row whatever its status, while creating
the child row in `processing`. -/
theorem C3_terminal_states_amended (db : DB) (uid imageId : Nat)
    (img : Image) (newId newUp newSize : Nat)
    (himg : img_of db imageId = some img) (hown : img.user_id = uid)
    (hterm : img.status = "failed" ∨ img.status = "active_deleted" ∨
      img.status = "archived_deleted")
    (hfresh : ∀ i ∈ db.images, i.id ≠ newId) :
    status_after (delete_image db uid imageId) imageId =
      some "active_deleted" ∧
    status_after (edit_image db uid imageId true newId newUp newSize)
      imageId = some "archived" ∧
    (match edit_image db uid imageId true newId newUp newSize with
     | Except.ok db2 => (img_of db2 newId).map (fun i => i.status)
     | Except.error _ => none) = some "processing" := by
  have hok := delete_image_ok db uid imageId img himg hown
  have heok : edit_image db uid imageId true newId newUp newSize =
      Except.ok { db with
        images := update_image db.images imageId
            (fun i => { i with status := "archived", rag_indexed := false }) ++
          [{ id := newId, user_id := uid, status := "processing",
             title := img.title, description := img.description,
             original_filename := img.original_filename, taken_at := none,
             uploaded_at := newUp, file_size := newSize,
             location_name := none, tags := [], rag_indexed := false,
             ai_analysis := none, parent_image_id := some imageId,
             root_image_id := img.root_image_id }] } := by
    unfold edit_image
    rw [himg]
    dsimp only
    rw [if_neg (by simp [hown]), if_neg (by simp)]
  refine ⟨?_, ?_, ?_⟩
  · obtain ⟨db1, hok1, hrow1⟩ := delete_image_row db uid imageId img himg hown
    rw [hok1]
    unfold status_after
    dsimp only
    rw [hrow1]
    rcases hterm with h | h | h <;> rw [h] <;> rfl
  · rw [heok]
    unfold status_after img_of
    dsimp only
    have hleft : (update_image db.images imageId
        (fun i =>
          { i with status := "archived", rag_indexed := false })).find?
        (fun i => i.id == imageId) =
        some { img with status := "archived", rag_indexed := false } := by
      have hthis := img_of_update_self db imageId
        (fun i => { i with status := "archived", rag_indexed := false })
        (fun i => rfl) db.tagDict
      unfold img_of at hthis
      dsimp only at hthis
      have himg2 : db.images.find? (fun i => i.id == imageId) = some img := himg
      rw [hthis, himg2]
      rfl
    rw [find?_append_of_some _ _ hleft]
    rfl
  · rw [heok]
    dsimp only
    unfold img_of
    dsimp only
    have hleft : (update_image db.images imageId
        (fun i =>
          { i with status := "archived", rag_indexed := false })).find?
        (fun i => i.id == newId) = none := by
      rw [List.find?_eq_none]
      intro x hx
      simp only [update_image, List.mem_map] at hx
      obtain ⟨i0, hi0, heq⟩ := hx
      have hid : x.id = i0.id := by
        by_cases hc : (i0.id == imageId) = true
        · rw [← heq]; simp [hc]
        · rw [← heq]; simp [hc]
      simp only [beq_iff_eq, hid]
      exact hfresh i0 hi0
    rw [find?_append_of_none _ _ hleft]
    simp [List.find?]

/-- Fixture image in a terminal state (`failed`). -/
def c3_db : DB := ⟨[mkImage 1 7 "failed" []], []⟩

/-- C3 witness: the amended theorem applied to a `failed` row. -/
theorem C3_terminal_states_amended_witness :
    status_after (delete_image c3_db 7 1) 1 = some "active_deleted" ∧
    status_after (edit_image c3_db 7 1 true 2 5 100) 1 = some "archived" ∧
    (match edit_image c3_db 7 1 true 2 5 100 with
     | Except.ok db2 => (img_of db2 2).map (fun i => i.status)
     | Except.error _ => none) = some "processing" :=
  C3_terminal_states_amended c3_db 7 1 (mkImage 1 7 "failed" []) 2 5 100
    (by decide) (by decide) (by decide) (by decide)

/-- C8 counterexample: for an `archived` image, one delete gives
`archived_deleted` but a second delete re-maps it to `active_deleted`,
so delete is not idempotent. -/
theorem C8_counterexample_archived_double_delete :
    status_after (delete_image ⟨[mkImage 1 7 "archived" []], []⟩ 7 1) 1 =
      some "archived_deleted" ∧
    status_after_two_deletes ⟨[mkImage 1 7 "archived" []], []⟩ 7 1 =
      some "active_deleted" ∧
    some "active_deleted" ≠ some "archived_deleted" := by
  decide

/-- C8 amended: delete maps `active`→`active_deleted`,
`archived`→`archived_deleted`, anything else→`active_deleted` and clears
`rag_indexed`; repeated delete is idempotent for every starting status
EXCEPT `archived` (where the second call re-derives `active_deleted`
from `archived_deleted`, changing the status again). -/
theorem C8_delete_idempotent_unless_archived (db : DB) (uid imageId : Nat)
    (img : Image) (himg : img_of db imageId = some img)
    (hown : img.user_id = uid) (hna : img.status ≠ "archived") :
    status_after (delete_image db uid imageId) imageId =
      some (delete_status img.status) ∧
    delete_status img.status = "active_deleted" ∧
    rag_after (delete_image db uid imageId) imageId = some false ∧
    status_after_two_deletes db uid imageId =
      status_after (delete_image db uid imageId) imageId ∧
    delete_status "active" = "active_deleted" ∧
    delete_status "archived" = "archived_deleted" ∧
    (∀ s, s ≠ "active" → s ≠ "archived" → delete_status s = "active_deleted") := by
  obtain ⟨db1, hok, hrow⟩ := delete_image_row db uid imageId img himg hown
  have hds : delete_status img.status = "active_deleted" := by
    unfold delete_status
    by_cases h1 : img.status = "active"
    · rw [if_pos h1]
    · rw [if_neg h1, if_neg hna]
  have hstat1 : status_after (delete_image db uid imageId) imageId =
      some (delete_status img.status) := by
    rw [hok]
    unfold status_after
    dsimp only
    rw [hrow]
    rfl
  have hrag1 : rag_after (delete_image db uid imageId) imageId = some false := by
    rw [hok]
    unfold rag_after
    dsimp only
    rw [hrow]
    rfl
  obtain ⟨db2, hok2, hrow2⟩ := delete_image_row db1 uid imageId
    { img with status := delete_status img.status, rag_indexed := false }
    hrow hown
  have hstat2 : status_after (delete_image db1 uid imageId) imageId =
      some (delete_status (delete_status img.status)) := by
    rw [hok2]
    unfold status_after
    dsimp only
    rw [hrow2]
    rfl
  refine ⟨hstat1, hds, hrag1, ?_, rfl, rfl, ?_⟩
  · unfold status_after_two_deletes
    rw [hstat1, hok]
    dsimp only
    rw [hstat2, hds]
    rfl
  · intro s h1 h2
    unfold delete_status
    rw [if_neg h1, if_neg h2]

/-- Fixture for the delete-idempotence theorem: an `active` image. -/
def c8_db : DB := ⟨[mkImage 1 7 "active" []], []⟩

/-- C8 witness: the amended theorem applied to an `active` row. -/
theorem C8_delete_idempotent_unless_archived_witness :
    status_after (delete_image c8_db 7 1) 1 =
      some (delete_status "active") ∧
    delete_status "active" = "active_deleted" ∧
    rag_after (delete_image c8_db 7 1) 1 = some false ∧
    status_after_two_deletes c8_db 7 1 =
      status_after (delete_image c8_db 7 1) 1 ∧
    delete_status "active" = "active_deleted" ∧
    delete_status "archived" = "archived_deleted" ∧
    (∀ s, s ≠ "active" → s ≠ "archived" →
      delete_status s = "active_deleted") :=
  C8_delete_idempotent_unless_archived c8_db 7 1 (mkImage 1 7 "active" [])
    (by decide) (by decide) (by decide)

/-! ## Metadata extractor (`tasks.parse_exif_data`) -/

/-- `tasks.DATE_TAGS_PRIORITY`: candidate tags for `taken_at`, most
authoritative first. -/
def DATE_TAGS_PRIORITY : List String :=
  ["DateTimeOriginal", "DateTimeDigitized", "DateTime"]

/-- `tasks.EXIF_BLOCKLIST`: tag names excluded from DB storage. -/
def EXIF_BLOCKLIST : List String :=
  ["MakerNote", "UserComment",
   "PrintImageMatching",
   "XPTitle", "XPComment", "XPAuthor", "XPKeywords", "XPSubject",
   "TIFF/EPStandardID",
   "ExifOffset", "ExifIFDPointer", "GPSInfoIFDPointer",
   "InteroperabilityIFDPointer",
   "JPEGInterchangeFormat", "JPEGInterchangeFormatLength",
   "StripOffsets", "StripByteCounts", "RowsPerStrip",
   "TileWidth", "TileLength", "TileOffsets", "TileByteCounts",
   "ThumbnailOffset", "ThumbnailLength", "ExifInteroperabilityOffset",
   "ImageUniqueID", "BodySerialNumber",
   "NewSubfileType",
   "Orientation",
   "ExifImageWidth", "ExifImageHeight",
   "ImageWidth", "ImageLength",
   "ShutterSpeedValue", "ApertureValue", "MaxApertureValue",
   "DateTime", "DateTimeDigitized",
   "OffsetTime", "OffsetTimeOriginal", "OffsetTimeDigitized",
   "LensSpecification",
   "MeteringMode", "ExposureProgram", "LightSource", "SensingMethod",
   "SceneCaptureType", "FileSource", "SceneType", "CustomRendered",
   "GainControl", "Contrast", "Saturation", "Sharpness",
   "SubjectDistance", "SubjectDistanceRange",
   "ExposureMode", "WhiteBalance", "DigitalZoomRatio",
   "BrightnessValue", "Software", "ProcessingSoftware",
   "SubsecTime", "SubsecTimeOriginal", "SubsecTimeDigitized",
   "SensitivityType", "ExposureIndex", "RecommendedExposureIndex",
   "CFAPattern", "CFARepeatPatternDim",
   "SpectralSensitivity", "OECF", "SpatialFrequencyResponse",
   "DeviceSettingDescription", "SubjectArea", "SubjectLocation",
   "CompressedBitsPerPixel", "ComponentsConfiguration",
   "FlashPixVersion", "ExifVersion",
   "InteroperabilityIndex", "InteroperabilityVersion",
   "RelatedSoundFile", "ImageDepth",
   "ResolutionUnit", "XResolution", "YResolution",
   "FocalPlaneXResolution", "FocalPlaneYResolution",
   "FocalPlaneResolutionUnit",
   "WhitePoint", "PrimaryChromaticities", "YCbCrCoefficients",
   "YCbCrSubSampling", "YCbCrPositioning", "ReferenceBlackWhite",
   "TransferFunction", "ColorSpace", "PlanarConfiguration",
   "SampleFormat", "TransferRange",
   "GPSVersionID", "GPSInfo",
   "BitsPerSample", "Compression", "PhotometricInterpretation",
   "SamplesPerPixel"]

/-- Tag-name filter of the extraction loop: `GPSInfo` is intercepted and
stored before the blocklist check; any other blocklisted name is
skipped. -/
def keep_exif_tag (name : String) : Bool :=
  name == "GPSInfo" || !(EXIF_BLOCKLIST.contains name)

/-- The persisted `exif_data` map built by the extraction loop,
restricted to string-valued tags (date tags are strings; the
value-formatting branches do not touch them). -/
def build_exif_data (raw : List (String × String)) : List (String × String) :=
  raw.filter (fun kv => keep_exif_tag kv.1)

/-- Split a character list on a separator character (semantics of
Python `str.split(sep)` for a one-character separator). -/
def split_on_char (sep : Char) : List Char → List (List Char)
  | [] => [[]]
  | c :: rest =>
    let r := split_on_char sep rest
    if c = sep then [] :: r
    else
      match r with
      | [] => [[c]]
      | h :: t => (c :: h) :: t

/-- Decimal parse of a character list (all-digit, non-empty). -/
def chars_to_nat (l : List Char) : Option Nat :=
  if l ≠ [] ∧ l.all (fun c => c.isDigit) then
    some (l.foldl (fun acc c => acc * 10 + (c.toNat - 48)) 0)
  else none

/-- Python `str(v).replace(chr(0), "").strip()`: drop null bytes, then
strip surrounding whitespace. -/
def clean_date_str (s : String) : String :=
  let noNull := s.data.filter (fun c => c ≠ Char.ofNat 0)
  String.mk (((noNull.dropWhile (fun c => c.isWhitespace)).reverse.dropWhile
    (fun c => c.isWhitespace)).reverse)

/-- `datetime.strptime(s, "%Y:%m:%d %H:%M:%S")`, returning `none` where
Python raises ValueError. -/
def parse_exif_datetime (s : String) : Option DT :=
  match split_on_char ' ' s.data with
  | [d, t] =>
    match split_on_char (Char.ofNat 58) d, split_on_char (Char.ofNat 58) t with
    | [ys, ms, ds], [hs, mis, ss] =>
      match chars_to_nat ys, chars_to_nat ms, chars_to_nat ds,
        chars_to_nat hs, chars_to_nat mis, chars_to_nat ss with
      | some y, some mo, some da, some ho, some mi, some se =>
        if 1 ≤ mo ∧ mo ≤ 12 ∧ 1 ≤ da ∧ da ≤ 31 ∧ ho ≤ 23 ∧ mi ≤ 59 ∧
            se ≤ 59 then
          some ⟨y, mo, da, ho, mi, se⟩
        else none
      | _, _, _, _, _, _ => none
    | _, _ => none
  | _ => none

/-- Lookup in the persisted metadata map (`date_tag in exif_data`). -/
def exif_lookup (m : List (String × String)) (k : String) : Option String :=
  (m.find? (fun kv => kv.1 == k)).map (fun kv => kv.2)

/-- Date resolution of `parse_exif_data` (step 5): walk
`DATE_TAGS_PRIORITY` over the already-filtered `exif_data`; the first
present tag whose cleaned value parses wins; a present-but-unparseable
value falls through to the next candidate; no match is not an error. -/
def resolve_taken_at (exif_data : List (String × String)) : Option DT :=
  (DATE_TAGS_PRIORITY.filterMap
    (fun tag => (exif_lookup exif_data tag).bind
      (fun v => parse_exif_datetime (clean_date_str v)))).head?

/-- `tasks.parse_exif_data` (string-valued tags): blocklist filtering
runs first, and the timestamp is then resolved from the FILTERED map. -/
def parse_exif_data (raw : List (String × String)) :
    List (String × String) × Option DT :=
  (build_exif_data raw, resolve_taken_at (build_exif_data raw))

/-- C2: evaluation of the code at the failing input.  The fallback date
tags `DateTimeDigitized` and `DateTime` are listed in the priority order
but are also blocklisted, and the priority loop runs over the filtered
map — so an image whose only valid date tag is `DateTimeDigitized` (or
`DateTime`) gets NO capture timestamp, although its value parses
perfectly well; only `DateTimeOriginal` can ever win.  An unparseable
candidate yields an absent timestamp without error. -/
theorem C2_date_priority_dead_fallbacks :
    parse_exif_datetime (clean_date_str "2024:07:15 14:30:00") =
      some ⟨2024, 7, 15, 14, 30, 0⟩ ∧
    "DateTimeDigitized" ∈ DATE_TAGS_PRIORITY ∧
    "DateTime" ∈ DATE_TAGS_PRIORITY ∧
    "DateTimeDigitized" ∈ EXIF_BLOCKLIST ∧
    "DateTime" ∈ EXIF_BLOCKLIST ∧
    "DateTimeOriginal" ∉ EXIF_BLOCKLIST ∧
    parse_exif_data [("DateTimeDigitized", "2024:07:15 14:30:00")] =
      ([], none) ∧
    parse_exif_data [("DateTime", "2024:07:15 14:30:00")] = ([], none) ∧
    parse_exif_data [("DateTimeOriginal", "2024:07:15 14:30:00")] =
      ([("DateTimeOriginal", "2024:07:15 14:30:00")],
        some ⟨2024, 7, 15, 14, 30, 0⟩) ∧
    parse_exif_data [("DateTimeOriginal", "no date here")] =
      ([("DateTimeOriginal", "no date here")], none) := by
  decide

/-! ## AI-enrichment merge (`tasks.enrich_ai_models`) -/

/-- Python `str.strip()` (structurally recursive, so proofs can
evaluate it). -/
def py_strip (s : String) : String :=
  String.mk (((s.data.dropWhile (fun c => c.isWhitespace)).reverse.dropWhile
    (fun c => c.isWhitespace)).reverse)

/-- Location update used by the enrichment merge: set
`image.location_name` and link the name as an `exif_location` tag. -/
def set_location_and_tag (db : DB) (imageId : Nat) (loc : String) : DB :=
  add_tag_to_image
    { db with
      images := update_image db.images imageId
        (fun i => { i with location_name := some loc }) }
    imageId loc "exif_location"

/-- The first half of the `enrich_ai_models` merge: store the analysis
JSON, auto-fill the description only when the stripped current
description is empty, then link every returned keyword as a requested
`ai_generated` tag. -/
def enrich_core (db : DB) (imageId : Nat) (res : AIResult) : DB :=
  apply_tags
    { db with
      images := update_image db.images imageId
        (fun i => { i with
          ai_analysis := some res,
          description :=
            if py_strip (i.description.getD "") = "" then some res.caption
            else i.description }) }
    imageId res.tags "ai_generated"

/-- `tasks.enrich_ai_models`, merge step (after the vision call): the
core merge, then the location update — the AI-refined name when
truthy, otherwise the offline rough location when it is not the
"Unknown" sentinel. -/
def enrich_ai_models (db : DB) (imageId : Nat) (res : AIResult)
    (rough_location : String) : DB :=
  match img_of db imageId with
  | none => db
  | some _ =>
    match res.location_zh with
    | some loc =>
      if loc ≠ "" then
        set_location_and_tag (enrich_core db imageId res) imageId loc
      else if rough_location ≠ "Unknown" then
        set_location_and_tag (enrich_core db imageId res) imageId
          rough_location
      else enrich_core db imageId res
    | none =>
      if rough_location ≠ "Unknown" then
        set_location_and_tag (enrich_core db imageId res) imageId
          rough_location
      else enrich_core db imageId res

lemma find_tag_db_images (db : DB) (l : List Image) (m : String) :
    find_tag { db with images := l } m = find_tag db m := rfl

/-- Behaviour of the core merge on the targeted image row. -/
lemma enrich_core_spec (db : DB) (imageId : Nat) (img : Image)
    (res : AIResult) (himg : img_of db imageId = some img)
    (hdesc : py_strip (img.description.getD "") ≠ "") :
    ∃ img2, img_of (enrich_core db imageId res) imageId = some img2 ∧
      img2.description = img.description ∧
      img2.ai_analysis = some res ∧
      (∀ x, x ∈ img.tags → x ∈ img2.tags) ∧
      (∀ kw, kw ∈ res.tags → kw ∈ img2.tags) ∧
      (img.tags.Nodup → img2.tags.Nodup) := by
  set f : Image → Image := fun i =>
    { i with
      ai_analysis := some res,
      description :=
        if py_strip (i.description.getD "") = "" then some res.caption
        else i.description } with hf
  have h1 : img_of { db with images := update_image db.images imageId f }
      imageId = some (f img) := by
    have := img_of_update_self db imageId f (fun i => rfl) db.tagDict
    rw [this, himg]
    rfl
  obtain ⟨img2, h2, _, _, _, hdesc2, _, _, hai2, _, hsub, hnames, hnodup, _⟩ :=
    apply_tags_spec res.tags _ imageId "ai_generated" (f img) h1
  refine ⟨img2, h2, ?_, ?_, ?_, hnames, ?_⟩
  · rw [hdesc2, hf]
    simp only
    rw [if_neg hdesc]
  · rw [hai2]
  · intro x hx
    exact hsub x hx
  · intro hnd
    exact hnodup hnd

/-- The core merge creates fresh keywords with `tag_type=ai_generated`. -/
lemma enrich_core_creates (db : DB) (imageId : Nat) (img : Image)
    (res : AIResult) (himg : img_of db imageId = some img)
    (kw : String) (hkw : kw ∈ res.tags) (hfree : find_tag db kw = none) :
    find_tag (enrich_core db imageId res) kw = some ⟨kw, "ai_generated"⟩ := by
  set f : Image → Image := fun i =>
    { i with
      ai_analysis := some res,
      description :=
        if py_strip (i.description.getD "") = "" then some res.caption
        else i.description } with hf
  have h1 : img_of { db with images := update_image db.images imageId f }
      imageId = some (f img) := by
    have := img_of_update_self db imageId f (fun i => rfl) db.tagDict
    rw [this, himg]
    rfl
  exact apply_tags_creates res.tags _ imageId "ai_generated" (f img) kw h1
    hkw hfree

/-- The core merge never rewrites an existing tag row. -/
lemma enrich_core_find_tag_stable (db : DB) (imageId : Nat) (res : AIResult)
    (m : String) (t : Tag) (h : find_tag db m = some t) :
    find_tag (enrich_core db imageId res) m = some t :=
  apply_tags_find_tag_stable res.tags _ imageId "ai_generated" m t h

/-- Behaviour of the location step on the targeted image row. -/
lemma set_location_step (db : DB) (imageId : Nat) (loc : String)
    (img : Image) (himg : img_of db imageId = some img) :
    ∃ img', img_of (set_location_and_tag db imageId loc) imageId =
        some img' ∧
      img'.description = img.description ∧
      img'.ai_analysis = img.ai_analysis ∧
      (∀ x, x ∈ img.tags → x ∈ img'.tags) ∧
      (img.tags.Nodup → img'.tags.Nodup) := by
  have h1 : img_of { db with
      images := update_image db.images imageId
        (fun i => { i with location_name := some loc }) } imageId =
      some { img with location_name := some loc } := by
    have := img_of_update_self db imageId
      (fun i => { i with location_name := some loc }) (fun i => rfl)
      db.tagDict
    rw [this, himg]
    rfl
  have h2 := img_of_add_tag _ imageId loc "exif_location" h1
  unfold set_location_and_tag
  by_cases hm : loc ∈ ({ img with location_name := some loc } : Image).tags
  · rw [if_pos hm] at h2
    exact ⟨_, h2, rfl, rfl, fun x hx => hx, fun hnd => hnd⟩
  · rw [if_neg hm] at h2
    refine ⟨_, h2, rfl, rfl, fun x hx => by simp [hx], ?_⟩
    intro hnd
    simp only [List.nodup_append, List.nodup_cons, List.not_mem_nil,
      not_false_iff, List.nodup_nil, and_true, true_and]
    refine ⟨hnd, ?_⟩
    intro a ha hb
    simp only [List.mem_singleton] at hb
    exact hm (hb ▸ ha)

/-- The location step never rewrites an existing tag row. -/
lemma set_location_find_tag_stable (db : DB) (imageId : Nat) (loc m : String)
    (t : Tag) (h : find_tag db m = some t) :
    find_tag (set_location_and_tag db imageId loc) m = some t := by
  unfold set_location_and_tag
  exact find_tag_add_tag_stable _ imageId loc "exif_location" m
    (by rw [find_tag_db_images]; exact h)

/-- C6: the AI-enrichment merge never destroys user intent — when the
image already has a non-blank description, the merge keeps the
description unchanged, links every returned keyword to the image
(deduplicated: the link list stays duplicate-free), stores the analysis
JSON, and every keyword whose tag name is fresh is created with
`tag_type=ai_generated`. -/
theorem C6_enrich_merge_preserves_user_intent (db : DB) (imageId : Nat)
    (img : Image) (res : AIResult) (rough : String)
    (himg : img_of db imageId = some img)
    (hdesc : py_strip (img.description.getD "") ≠ "")
    (hnd : img.tags.Nodup) :
    ∃ img', img_of (enrich_ai_models db imageId res rough) imageId =
        some img' ∧
      img'.description = img.description ∧
      img'.ai_analysis = some res ∧
      (∀ kw ∈ res.tags, kw ∈ img'.tags) ∧
      img'.tags.Nodup ∧
      (∀ kw ∈ res.tags, find_tag db kw = none →
        find_tag (enrich_ai_models db imageId res rough) kw =
          some ⟨kw, "ai_generated"⟩) := by
  obtain ⟨img2, h2, hdesc2, hai2, hsub2, hkw2, hnodup2⟩ :=
    enrich_core_spec db imageId img res himg hdesc
  have hcreate := fun kw (hk : kw ∈ res.tags)
      (hfree : find_tag db kw = none) =>
    enrich_core_creates db imageId img res himg kw hk hfree
  unfold enrich_ai_models
  rw [himg]
  dsimp only
  have main : ∀ dbf : DB,
      (dbf = enrich_core db imageId res ∨
        ∃ loc, dbf = set_location_and_tag (enrich_core db imageId res)
          imageId loc) →
      (∃ img', img_of dbf imageId = some img' ∧
        img'.description = img.description ∧
        img'.ai_analysis = some res ∧
        (∀ kw ∈ res.tags, kw ∈ img'.tags) ∧
        img'.tags.Nodup ∧
        (∀ kw ∈ res.tags, find_tag db kw = none →
          find_tag dbf kw = some ⟨kw, "ai_generated"⟩)) := by
    rintro dbf (rfl | ⟨loc, rfl⟩)
    · exact ⟨img2, h2, hdesc2, hai2, hkw2, hnodup2 hnd, hcreate⟩
    · obtain ⟨img', h', hd', ha', hs', hn'⟩ :=
        set_location_step _ imageId loc img2 h2
      refine ⟨img', h', ?_, ?_, ?_, ?_, ?_⟩
      · rw [hd', hdesc2]
      · rw [ha', hai2]
      · intro kw hk
        exact hs' kw (hkw2 kw hk)
      · exact hn' (hnodup2 hnd)
      · intro kw hk hfree
        exact set_location_find_tag_stable _ imageId loc kw _
          (hcreate kw hk hfree)
  cases hloc : res.location_zh with
  | some loc =>
    dsimp only
    by_cases hne : loc ≠ ""
    · rw [if_pos hne]
      exact main _ (Or.inr ⟨loc, rfl⟩)
    · rw [if_neg hne]
      by_cases hr : rough ≠ "Unknown"
      · rw [if_pos hr]
        exact main _ (Or.inr ⟨rough, rfl⟩)
      · rw [if_neg hr]
        exact main _ (Or.inl rfl)
  | none =>
    dsimp only
    by_cases hr : rough ≠ "Unknown"
    · rw [if_pos hr]
      exact main _ (Or.inr ⟨rough, rfl⟩)
    · rw [if_neg hr]
      exact main _ (Or.inl rfl)

/-- Fixture for the enrichment scenario: the user already set
`description="My trip"`. -/
def c6_img : Image :=
  { mkImage 1 7 "active" [] with description := some "My trip" }

/-- Fixture database for the enrichment scenario. -/
def c6_db : DB := ⟨[c6_img], []⟩

/-- Fixture vision result: `tags=["海滩","日落"]` plus a caption. -/
def c6_res : AIResult :=
  { caption := "一个海滩", tags := ["海滩", "日落"], location_zh := none }

/-- C6 witness: the theorem applied at the spec scenario — description
stays "My trip", both keywords are linked as fresh `ai_generated` tags. -/
theorem C6_enrich_merge_preserves_user_intent_witness :
    ∃ img', img_of (enrich_ai_models c6_db 1 c6_res "Unknown") 1 =
        some img' ∧
      img'.description = c6_img.description ∧
      img'.ai_analysis = some c6_res ∧
      (∀ kw ∈ c6_res.tags, kw ∈ img'.tags) ∧
      img'.tags.Nodup ∧
      (∀ kw ∈ c6_res.tags, find_tag c6_db kw = none →
        find_tag (enrich_ai_models c6_db 1 c6_res "Unknown") kw =
          some ⟨kw, "ai_generated"⟩) :=
  C6_enrich_merge_preserves_user_intent c6_db 1 c6_img c6_res "Unknown"
    (by decide) (by decide) (by decide)

/-! ## RAG indexer (`tasks.build_rag_index`, `app/ai.py`) -/

/-- Module-level names defined by `app/ai.py`. -/
def ai_module_attrs : List String :=
  ["CHROMA_HOST", "CHROMA_PORT", "COLLECTION_NAME", "LLM_API_KEY",
   "LLM_API_BASE", "LLM_MODEL", "EMBEDDING_MODEL",
   "get_chroma_collection", "generate_embedding", "query_llm"]

/-- Python attribute lookup on the `ai` module; `none` models
AttributeError. -/
def ai_attr (n : String) : Option String :=
  if ai_module_attrs.contains n then some n else none

/-- Zero-padded two-digit decimal rendering (for `strftime`). -/
def pad2 (n : Nat) : String :=
  if n < 10 then "0" ++ toString n else toString n

/-- `taken_at.strftime(%Y-%m-%d)`. -/
def strftime_date (dt : DT) : String :=
  toString dt.year ++ "-" ++ pad2 dt.month ++ "-" ++ pad2 dt.day

/-- Python truthiness of an optional string column. -/
def truthy (o : Option String) : Bool :=
  match o with
  | none => false
  | some s => s ≠ ""

/-- `sep.join(parts)`. -/
def join_sep (sep : String) (l : List String) : String :=
  match l with
  | [] => ""
  | h :: t => t.foldl (fun acc x => acc ++ sep ++ x) h

/-- RAG source-text synthesis of `build_rag_index`: the present parts of
{title, filename, capture date, location, tag names, description} in
fixed order, joined with "。"; a generic placeholder when all parts are
missing. -/
def rag_text (img : Image) : String :=
  let parts :=
    (if truthy img.title then ["标题: " ++ img.title.getD ""] else []) ++
    (if img.original_filename ≠ "" then
      ["文件名: " ++ img.original_filename] else []) ++
    (match img.taken_at with
     | some dt => ["时间: " ++ strftime_date dt]
     | none => []) ++
    (if truthy img.location_name then
      ["地点: " ++ img.location_name.getD ""] else []) ++
    (if img.tags ≠ [] then ["标签: " ++ join_sep ", " img.tags] else []) ++
    (if truthy img.description then
      ["描述: " ++ img.description.getD ""] else [])
  let joined := join_sep "。" parts
  if joined = "" then "图片" else joined

/-- Candidate filter of the indexer: `status=active`,
`rag_indexed=false`, AI analysis present. -/
def rag_eligible (img : Image) : Bool :=
  img.status == "active" && !img.rag_indexed && img.ai_analysis.isSome

/-- One per-candidate iteration of `build_rag_index`: synthesize the
document, call `ai.generate_embedding_sync(rag_text)`, upsert, set
`rag_indexed=true` and commit; an exception rolls back this image only.
The attribute lookup of `generate_embedding_sync` is where the iteration
raises. -/
def index_one (img : Image) : Except String Image :=
  let doc := rag_text img
  match ai_attr "generate_embedding_sync" with
  | none =>
    Except.error ("AttributeError: module app.ai has no attribute " ++
      "generate_embedding_sync while indexing " ++ doc)
  | some _ => Except.ok { img with rag_indexed := true }

/-- `tasks.build_rag_index`: select up to 10 eligible candidates, then
run the per-image iteration with per-image commit — a failing iteration
leaves its row unchanged and the others intact. -/
def build_rag_index (db : DB) : DB :=
  let candidates := (db.images.filter rag_eligible).take 10
  { db with
    images := db.images.map (fun img =>
      if candidates.contains img then
        match index_one img with
        | Except.ok i => i
        | Except.error _ => img
      else img) }

/-- Fixture candidate for the indexer run. -/
def c7_img (k : Nat) : Image :=
  { mkImage k 7 "active" [] with ai_analysis := some ⟨"c", [], none⟩ }

/-- Fixture database with 12 eligible candidates. -/
def c7_db : DB := ⟨(List.range 12).map c7_img, []⟩

/-- C7: evaluation of the code at the claim.  The selection is as
specified (at most 10 rows, only `active`, unindexed, analysed ones),
but every per-image iteration calls `ai.generate_embedding_sync` — a
name `app/ai.py` never defines (it defines `generate_embedding`) — so
every iteration raises AttributeError and rolls back: a run changes
nothing, and with 12 eligible candidates 0 (not 10) images end up
`rag_indexed=true`. -/
theorem C7_rag_indexer_attribute_error :
    (∀ db : DB, build_rag_index db = db) ∧
    ai_attr "generate_embedding_sync" = none ∧
    ai_attr "generate_embedding" = some "generate_embedding" ∧
    (∀ img : Image, index_one img =
      Except.error ("AttributeError: module app.ai has no attribute " ++
        "generate_embedding_sync while indexing " ++ rag_text img)) ∧
    (c7_db.images.filter rag_eligible).length = 12 ∧
    ((c7_db.images.filter rag_eligible).take 10).length = 10 ∧
    ((build_rag_index c7_db).images.filter
      (fun i => i.rag_indexed)).length = 0 := by
  refine ⟨?_, rfl, rfl, fun img => rfl, by decide, by decide, by decide⟩
  intro db
  unfold build_rag_index
  dsimp only
  have hmap : db.images.map (fun img =>
      if ((db.images.filter rag_eligible).take 10).contains img then
        match index_one img with
        | Except.ok i => i
        | Except.error _ => img
      else img) = db.images := by
    have hcongr : ∀ img ∈ db.images,
        (if ((db.images.filter rag_eligible).take 10).contains img then
          match index_one img with
          | Except.ok i => i
          | Except.error _ => img
        else img) = img := by
      intro img _
      split
      · rfl
      · rfl
    rw [List.map_congr_left hcongr]
    simp
  rw [hmap]

/-! ## Edit endpoint, invert filter and save step
(`routers/images.edit_image`) -/

/-- One pixel; the alpha slot is meaningful only in RGBA mode. -/
structure Px where
  r : Nat
  g : Nat
  b : Nat
  a : Nat
  deriving DecidableEq, Repr

/-- An in-memory Pillow raster: mode plus pixel data. -/
structure PImg where
  mode : String
  px : List Px
  deriving DecidableEq, Repr

/-- The alpha channel of a raster: present only in RGBA mode. -/
def alpha_channel (img : PImg) : Option (List Nat) :=
  if img.mode = "RGBA" then some (img.px.map (fun p => p.a)) else none

/-- `Image.convert("RGB")`: keep RGB, discard the alpha channel (pixels
become opaque, the mode loses the channel). -/
def convert_rgb (img : PImg) : PImg :=
  { mode := "RGB", px := img.px.map (fun p => { p with a := 255 }) }

/-- The invert branch of `edit_image`: an RGBA source is split, only the
RGB bands are inverted, and the ORIGINAL alpha band is re-merged; any
other mode is converted to RGB and inverted. -/
def apply_invert (img : PImg) : PImg :=
  if img.mode = "RGBA" then
    { mode := "RGBA",
      px := img.px.map (fun p =>
        { r := 255 - p.r, g := 255 - p.g, b := 255 - p.b, a := p.a }) }
  else
    { mode := "RGB",
      px := (convert_rgb img).px.map (fun p =>
        { r := 255 - p.r, g := 255 - p.g, b := 255 - p.b, a := p.a }) }

/-- The save step of `edit_image`:
`if img.mode in ("RGBA", "P"): img = img.convert("RGB")` before
`img.save(new_storage_path, quality=95)`. -/
def edit_save (img : PImg) : PImg :=
  if img.mode = "RGBA" ∨ img.mode = "P" then convert_rgb img else img

/-- The raster persisted by an edit request with `filter="invert"`. -/
def edit_persist_invert (img : PImg) : PImg :=
  edit_save (apply_invert img)

/-- Fixture: an RGBA source with a non-trivial alpha channel. -/
def c9_src : PImg := ⟨"RGBA", [⟨10, 20, 30, 128⟩, ⟨200, 100, 50, 0⟩]⟩

/-- C9: evaluation of the code at the failing input.  The invert branch
itself carefully preserves the alpha channel in memory, but the save
step then converts RGBA to RGB, so the persisted file has NO alpha
channel at all — the persisted image's alpha does not equal the
source's. -/
theorem C9_invert_alpha_dropped_on_save :
    alpha_channel c9_src = some [128, 0] ∧
    alpha_channel (apply_invert c9_src) = some [128, 0] ∧
    (apply_invert c9_src).mode = "RGBA" ∧
    (edit_persist_invert c9_src).mode = "RGB" ∧
    alpha_channel (edit_persist_invert c9_src) = none ∧
    alpha_channel (edit_persist_invert c9_src) ≠ alpha_channel c9_src := by
  decide

end PM
